import Mathlib

/-!
Verification development for the openclaw Zulip channel plugin.

The definitions below are a shallow embedding of the plugin's inbound
message pipeline (`src/zulip/monitor.ts`) and outbound send boundary
(`src/zulip/send.ts`).  Strings are Lean `String`s manipulated through
character lists so that every definition evaluates by kernel reduction.
JavaScript regular-expression operations used by the source are embedded
as literal character scanners (the source escapes every pattern before
compiling it, so each regex is a literal match).

External collaborators (the openclaw plugin SDK: mention-pattern matching,
markdown conversion and chunking, the pairing store, reply dispatch) are
modelled as abstract function parameters, except where a claim is decided
by their contract, in which case the model is written from the spec and
marked `Modelled from the spec:` in its doc comment.
-/

namespace ZulipSpec

/-! ## Generic string helpers (JS semantics on character lists) -/

/-- JavaScript whitespace (`\s` / `String.prototype.trim`) restricted to the
ASCII whitespace characters plus no-break space; matches JS behaviour on all
characters occurring in this development. -/
def isJsWs (c : Char) : Bool :=
  c = ' ' || c = '\t' || c = '\n' || c = '\r' || c = '\x0b' || c = '\x0c' || c = ' '

/-- JS `String.prototype.trim`. -/
def trimWs (s : String) : String :=
  String.mk (((s.data.dropWhile isJsWs).reverse.dropWhile isJsWs).reverse)

/-- Collapse every run of whitespace into one space: JS `replace(/\s+/g, " ")`.
The flag records whether the previous character belonged to a whitespace run,
so each maximal run emits exactly one space. -/
def collapseWsAux (prevWs : Bool) : List Char → List Char
  | [] => []
  | c :: rest =>
    if isJsWs c then
      if prevWs then collapseWsAux true rest
      else ' ' :: collapseWsAux true rest
    else c :: collapseWsAux false rest

/-- JS `replace(/\s+/g, " ")` on a `String`. -/
def collapseWs (s : String) : String := String.mk (collapseWsAux false s.data)

/-- JS `String.prototype.toLowerCase` (ASCII range, as used by the plugin). -/
def lowerStr (s : String) : String := String.mk (s.data.map Char.toLower)

/-- Case-insensitive "starts with" on character lists. -/
def startsWithCI : List Char → List Char → Bool
  | [], _ => true
  | _ :: _, [] => false
  | p :: ps, c :: cs => (p.toLower = c.toLower) && startsWithCI ps cs

/-- Case-insensitive substring containment (JS `/pat/i.test(s)` for a literal
escaped pattern). -/
def containsCI (pat : List Char) : List Char → Bool
  | [] => startsWithCI pat []
  | c :: rest => startsWithCI pat (c :: rest) || containsCI pat rest

/-- Scanner for case-insensitive global replace of a literal pattern
(JS `s.replace(/pat/gi, repl)` for an escaped pattern `pat`): leftmost match,
resume scanning after the match.  A positive `skip` means the scanner is still
inside a match whose remaining characters are being consumed. -/
def replaceScanCI (pat repl : List Char) : Nat → List Char → List Char
  | _, [] => []
  | Nat.succ k, _ :: rest => replaceScanCI pat repl k rest
  | 0, c :: rest =>
    if pat ≠ [] && startsWithCI pat (c :: rest) then
      repl ++ replaceScanCI pat repl (pat.length - 1) rest
    else
      c :: replaceScanCI pat repl 0 rest

/-- JS `s.replace(/pat/gi, repl)` for a literal escaped pattern. -/
def replaceAllCI (pat repl : List Char) (l : List Char) : List Char :=
  replaceScanCI pat repl 0 l

/-- Keep the first occurrence of each element, dropping later duplicates
(JS `Array.from(new Set(xs))`); `seen` accumulates the elements already
emitted. -/
def dedupKeepFirstAux (seen : List String) : List String → List String
  | [] => []
  | x :: rest =>
    if seen.contains x then dedupKeepFirstAux seen rest
    else x :: dedupKeepFirstAux (x :: seen) rest

/-- JS `Array.from(new Set(xs))`. -/
def dedupKeepFirst (l : List String) : List String := dedupKeepFirstAux [] l

/-! ## monitor.ts: allow-list normalization and policy helpers -/

/-- `monitor.ts` `normalizeAllowEntry`: trim, strip one leading `zulip:` or
`user:` prefix case-insensitively (`replace(/^(zulip|user):/i, "")`),
lowercase. -/
def normalizeAllowEntry (entry : String) : String :=
  let t := trimWs entry
  let stripped :=
    if startsWithCI "zulip:".data t.data then String.mk (t.data.drop 6)
    else if startsWithCI "user:".data t.data then String.mk (t.data.drop 5)
    else t
  lowerStr stripped

/-- `monitor.ts` `normalizeAllowList`: normalize each entry, drop empties,
deduplicate preserving first occurrence (`Array.from(new Set(...))`).
The TS code first coerces each entry with `String(e)`; the model takes the
entries as strings. -/
def normalizeAllowList (entries : List String) : List String :=
  dedupKeepFirst ((entries.map normalizeAllowEntry).filter (fun e => e ≠ ""))

/-- `monitor.ts` `isSenderAllowed`: empty list denies, `"*"` allows anyone,
otherwise match the normalized sender id, email, or display name (an empty
email/name is falsy in JS and never matches). -/
def isSenderAllowed (senderId senderEmail senderName : String)
    (allowFrom : List String) : Bool :=
  if allowFrom.isEmpty then false
  else if allowFrom.contains "*" then true
  else
    let idNorm := normalizeAllowEntry senderId
    let emailNorm := if senderEmail ≠ "" then normalizeAllowEntry senderEmail else ""
    let nameNorm := if senderName ≠ "" then normalizeAllowEntry senderName else ""
    allowFrom.any (fun e =>
      e = idNorm || (emailNorm ≠ "" && e = emailNorm) || (nameNorm ≠ "" && e = nameNorm))

/-- The Zulip mention markup for a bot name: `@**Name**`.  The TS code escapes
`botName` before building its regex, so the pattern is a literal string. -/
def mentionPat (botName : String) : List Char :=
  ("@**" ++ botName ++ "**").data

/-- `monitor.ts` `stripMention`: with a falsy (empty) bot name just trim;
otherwise replace every case-insensitive occurrence of `@**botName**` with a
space, collapse whitespace runs, and trim. -/
def stripMention (text : String) (botName : String) : String :=
  if botName = "" then trimWs text
  else trimWs (String.mk (collapseWsAux false (replaceAllCI (mentionPat botName) [' '] text.data)))

/-- `monitor.ts` `wasBotMentioned`: falsy bot name never matches; otherwise a
case-insensitive search for `@**botName**`. -/
def wasBotMentioned (text : String) (botName : String) : Bool :=
  if botName = "" then false
  else containsCI (mentionPat botName) text.data

/-! ## monitor.ts: the dedup cache -/

def RECENT_MESSAGE_TTL_MS : Nat := 5 * 60000

def RECENT_MAX : Nat := 2000

/-- The sweep loop inside `dedupeCheck`: delete every entry whose age exceeds
the TTL (`if (now - t > RECENT_MESSAGE_TTL_MS) recentIds.delete(k)`).  The JS
`Map` is modelled as an association list of `(key, firstSeen)` pairs; deleting
while iterating a `Map` visits every entry once, i.e. it is a filter.
Timestamps are `Nat`; JS computes `now - t` which for `t > now` is negative
and fails the `> TTL` test exactly as truncated subtraction does. -/
def sweepRecent (now : Nat) (m : List (String × Nat)) : List (String × Nat) :=
  m.filter (fun kt => !(now - kt.2 > RECENT_MESSAGE_TTL_MS))

/-- `monitor.ts` `dedupeCheck`: opportunistically sweep when the cache holds
more than `RECENT_MAX` entries, then report whether `key` is present,
recording it with the current time when it is not.  Returns
`(already seen, new cache)`; insertion position in the association list is
irrelevant to the semantics (a JS `Map` appends). -/
def dedupeCheck (now : Nat) (m : List (String × Nat)) (key : String) :
    Bool × List (String × Nat) :=
  let m1 := if m.length > RECENT_MAX then sweepRecent now m else m
  if m1.any (fun kt => kt.1 = key) then (true, m1)
  else (false, (key, now) :: m1)

/-! ## monitor.ts: data model for `handleMessage` -/

/-- `ZulipMessage.type` from `client.ts`: `"stream" | "private"`. -/
inductive ZMsgType where
  | stream
  | privateMsg
deriving DecidableEq

/-- `ZulipMessage` from `client.ts`, restricted to the fields `handleMessage`
reads.  `display_recipient` is a string for stream messages and an array of
users for private messages; the model keeps `some name` for the string form
and `none` for the array form (only the string form is ever read). -/
structure ZulipMsg where
  id : Nat
  sender_id : Nat
  sender_email : String
  sender_full_name : String
  type : ZMsgType
  stream_id : Option Nat
  display_recipient : Option String
  subject : Option String
  content : String
  timestamp : Nat
deriving DecidableEq

/-- The `dmPolicy` configuration value: `"open" | "pairing" | "disabled"`. -/
inductive DmPolicy where
  | dmOpen
  | dmPairing
  | dmDisabled
deriving DecidableEq

/-- The per-account environment captured before the poll loop starts, plus the
external collaborators `handleMessage` consults.  `matchesMention` stands for
`core.channel.mentions.matchesMentionPatterns` applied to the configured
regexes; `storeAllowFrom` is the (raw) entry list the pairing store read
returns (a failed read yields `[]` via `.catch(() => [])`); `genPairingCode`
stands for the verification code the pairing store mints for a new request. -/
structure MonitorEnv where
  accountId : String
  botUserId : Nat
  botName : String
  dmPolicy : DmPolicy
  allowFromCfg : List String
  autoReplyStreams : List String
  matchesMention : String → Bool
  storeAllowFrom : List String
  genPairingCode : String → String

/-- `configAllowFrom` in `monitorZulipProvider`: the static allow-list,
normalized once at startup. -/
def configAllowFrom (env : MonitorEnv) : List String :=
  normalizeAllowList env.allowFromCfg

/-- `getEffectiveAllowFrom`: union of the static list and the normalized
pairing-store list, deduplicated (`Array.from(new Set([...a, ...b]))`). -/
def getEffectiveAllowFrom (env : MonitorEnv) : List String :=
  dedupKeepFirst (configAllowFrom env ++ normalizeAllowList env.storeAllowFrom)

/-- `monitor.ts` `resolveStreamInfo`: `none` for private messages; for stream
messages the stream name (empty when `display_recipient` is not a string) and
the topic with a `"(no topic)"` default. -/
def resolveStreamInfo (msg : ZulipMsg) : Option (String × String) :=
  if msg.type = ZMsgType.stream then
    some (msg.display_recipient.getD "", msg.subject.getD "(no topic)")
  else none

/-- The `inAutoReplyStream` test of `handleMessage` (lines 146-148):
`streamInfo && autoReplyStreams.some(s => s.toLowerCase() === streamName.toLowerCase())`. -/
def inAutoReplyStream (env : MonitorEnv) (msg : ZulipMsg) : Bool :=
  match resolveStreamInfo msg with
  | some si => env.autoReplyStreams.any (fun s => lowerStr s = lowerStr si.1)
  | none => false

/-- `ChatType` of the finalized inbound context. -/
inductive CtxChatType where
  | direct
  | channel
deriving DecidableEq

/-- The inbound context handed to
`core.channel.reply.finalizeInboundContext`, restricted to the fields built
from data this model carries.  Fields resolved by external collaborators
(session key, account routing, envelope formatting) are omitted. -/
structure InboundCtx where
  BodyForAgent : String
  RawBody : String
  CommandBody : String
  To : String
  ChatType : CtxChatType
  MessageSid : String
  SenderName : String
  SenderId : String
  WasMentioned : Option Bool
  CommandAuthorized : Bool
deriving DecidableEq

/-- The outcome of one `handleMessage` run.  Every early `return` of the
source gets its own constructor; `droppedDmUnpaired created?` is the bare
`return` at line 195 (reached only under a non-open policy with a
non-allow-listed sender), carrying `some created` when the `pairing` branch
upserted a request and `none` otherwise (unreachable with the three-valued
policy). -/
inductive Decision where
  | droppedSelf
  | droppedDuplicate
  | droppedNoMention
  | droppedStreamSenderNotAllowed
  | droppedDmDisabled
  | droppedDmUnpaired (created : Option Bool)
  | droppedEmptyBody
  | processed (ctx : InboundCtx)
deriving DecidableEq

/-- A decision that got past the access-policy gates of `handleMessage`
(lines 144-197): the message is handled as a conversational turn, subject only
to the later empty-body validation at line 207. -/
def Decision.passesPolicy : Decision → Bool
  | .droppedEmptyBody => true
  | .processed _ => true
  | _ => false

/-- The cleaned body handed to reply generation, when the decision processed
the message. -/
def Decision.agentBody : Decision → Option String
  | .processed ctx => some ctx.BodyForAgent
  | _ => none

/-- Lines 199-271 of `handleMessage`: build the reply target, strip the
mention, drop an empty body, and finalize the inbound context. -/
def processTurn (env : MonitorEnv) (msg : ZulipMsg) : Decision :=
  let isDm := msg.type = ZMsgType.privateMsg
  let senderId := toString msg.sender_id
  let streamInfo := resolveStreamInfo msg
  let rawText := trimWs msg.content
  let toTarget :=
    if isDm then "dm:" ++ senderId
    else
      match streamInfo with
      | some si => "stream:" ++ si.1 ++ ":" ++ si.2
      | none => "dm:" ++ senderId
  let bodyText := stripMention rawText env.botName
  if bodyText = "" then Decision.droppedEmptyBody
  else
    let effectiveAllowFrom := getEffectiveAllowFrom env
    Decision.processed {
      BodyForAgent := bodyText
      RawBody := bodyText
      CommandBody := bodyText
      To := toTarget
      ChatType := if isDm then CtxChatType.direct else CtxChatType.channel
      MessageSid := toString msg.id
      SenderName := msg.sender_full_name
      SenderId := senderId
      WasMentioned := if isDm then none else some true
      CommandAuthorized :=
        isDm || isSenderAllowed senderId msg.sender_email msg.sender_full_name effectiveAllowFrom }

/-- Lines 167-197 of `handleMessage`: the DM policy block.  `pendingIds` is
the set of sender ids with a pending pairing request; the upsert's `created`
flag is `true` exactly when the sender has no pending request yet. -/
def dmGate (env : MonitorEnv) (pendingIds : List String) (msg : ZulipMsg) : Decision :=
  let senderId := toString msg.sender_id
  let effectiveAllowFrom := getEffectiveAllowFrom env
  if env.dmPolicy = DmPolicy.dmDisabled then Decision.droppedDmDisabled
  else
    let senderAllowed :=
      isSenderAllowed senderId msg.sender_email msg.sender_full_name effectiveAllowFrom
    if env.dmPolicy ≠ DmPolicy.dmOpen && !senderAllowed then
      Decision.droppedDmUnpaired
        (if env.dmPolicy = DmPolicy.dmPairing then some (!(pendingIds.contains senderId)) else none)
    else processTurn env msg

/-- The `if (isDm) { ... }` block (lines 169-197) followed by the common
continuation: stream messages skip straight to `processTurn`. -/
def dmGateAndProcess (env : MonitorEnv) (pendingIds : List String) (msg : ZulipMsg) : Decision :=
  if msg.type = ZMsgType.privateMsg then dmGate env pendingIds msg
  else processTurn env msg

/-- Lines 144-165 of `handleMessage`: the stream gates.  A stream message
outside every auto-reply stream needs a display-name mention or a configured
mention-pattern match; a stream message inside an auto-reply stream needs
allow-list membership whenever the effective allow-list is non-empty. -/
def handlePolicy (env : MonitorEnv) (pendingIds : List String) (msg : ZulipMsg) : Decision :=
  let senderId := toString msg.sender_id
  let rawText := trimWs msg.content
  if msg.type ≠ ZMsgType.privateMsg then
    let inAuto := inAutoReplyStream env msg
    if !inAuto && !(wasBotMentioned rawText env.botName) && !(env.matchesMention rawText) then
      Decision.droppedNoMention
    else if inAuto &&
        (let streamAllowFrom := getEffectiveAllowFrom env
         decide (streamAllowFrom.length > 0) &&
           !(isSenderAllowed senderId msg.sender_email msg.sender_full_name streamAllowFrom)) then
      Decision.droppedStreamSenderNotAllowed
    else dmGateAndProcess env pendingIds msg
  else dmGateAndProcess env pendingIds msg

/-- The full `handleMessage` decision for one message: self-message
suppression (line 131), dedup (line 134, `alreadySeen` is what `dedupeCheck`
reported), then policy and context building. -/
def handleDecision (env : MonitorEnv) (pendingIds : List String) (alreadySeen : Bool)
    (msg : ZulipMsg) : Decision :=
  if msg.sender_id = env.botUserId then Decision.droppedSelf
  else if alreadySeen then Decision.droppedDuplicate
  else handlePolicy env pendingIds msg

/-! ## monitor.ts: stateful step (dedup cache + pairing store + outbox) -/

/-- Modelled from the spec: `core.channel.pairing.upsertPairingRequest` lives
in the openclaw plugin SDK, not in this repository.  Per the spec it
"idempotently register[s] a pairing request for the sender (keyed by sender
id; repeated requests before approval must not create duplicate pending
entries)" and reports `created` only on first creation.  The store is the
list of pending sender ids. -/
def upsertPairingRequest (pending : List String) (id : String) : Bool × List String :=
  if pending.contains id then (false, pending) else (true, id :: pending)

/-- The dedup key of line 133: `` `${account.accountId}:${msg.id}` ``. -/
def dedupeKey (env : MonitorEnv) (msg : ZulipMsg) : String :=
  env.accountId ++ ":" ++ toString msg.id

/-- Mutable state threaded across `handleMessage` invocations: the module
level dedup cache, the pairing store's pending requests, and the pairing
replies handed to `sendZulipMessage` (target, verification code).  Logging,
status-sink patches and activity recording are elided observability
effects. -/
structure MonitorState where
  recentIds : List (String × Nat)
  pendingPairing : List String
  outbox : List (String × String)
deriving DecidableEq

/-- One `handleMessage` run with its side effects: consult/update the dedup
cache, decide, and in the pairing branch upsert the request and send the
instructional reply only when the upsert created it (lines 177-196).  The
reply send sits in a `try {} catch {}`; the outbox records the attempt. -/
def handleMessageStep (env : MonitorEnv) (now : Nat) (st : MonitorState) (msg : ZulipMsg) :
    Decision × MonitorState :=
  if msg.sender_id = env.botUserId then (Decision.droppedSelf, st)
  else
    let checked := dedupeCheck now st.recentIds (dedupeKey env msg)
    let st1 : MonitorState := { st with recentIds := checked.2 }
    let d := handleDecision env st.pendingPairing checked.1 msg
    match d with
    | Decision.droppedDmUnpaired (some _) =>
      let senderId := toString msg.sender_id
      let up := upsertPairingRequest st.pendingPairing senderId
      let st2 : MonitorState :=
        { st1 with
          pendingPairing := up.2
          outbox :=
            if up.1 then st1.outbox ++ [("dm:" ++ senderId, env.genPairingCode senderId)]
            else st1.outbox }
      (d, st2)
    | _ => (d, st1)

/-! ## Policy lemmas -/

lemma passesPolicy_processTurn (env : MonitorEnv) (msg : ZulipMsg) :
    (processTurn env msg).passesPolicy = true := by
  simp only [processTurn]
  split
  · rfl
  · rfl

lemma dmGate_processed {env : MonitorEnv} {p : List String} {msg : ZulipMsg} {ctx : InboundCtx}
    (h : dmGate env p msg = Decision.processed ctx) :
    processTurn env msg = Decision.processed ctx := by
  simp only [dmGate] at h
  split at h
  · simp at h
  · split at h
    · simp at h
    · exact h

lemma dmGateAndProcess_processed {env : MonitorEnv} {p : List String} {msg : ZulipMsg}
    {ctx : InboundCtx} (h : dmGateAndProcess env p msg = Decision.processed ctx) :
    processTurn env msg = Decision.processed ctx := by
  simp only [dmGateAndProcess] at h
  split at h
  · exact dmGate_processed h
  · exact h

lemma handlePolicy_processed {env : MonitorEnv} {p : List String} {msg : ZulipMsg}
    {ctx : InboundCtx} (h : handlePolicy env p msg = Decision.processed ctx) :
    processTurn env msg = Decision.processed ctx := by
  simp only [handlePolicy] at h
  split at h
  · split at h
    · simp at h
    · split at h
      · simp at h
      · exact dmGateAndProcess_processed h
  · exact dmGateAndProcess_processed h

lemma handleDecision_processed {env : MonitorEnv} {p : List String} {seen : Bool}
    {msg : ZulipMsg} {ctx : InboundCtx}
    (h : handleDecision env p seen msg = Decision.processed ctx) :
    processTurn env msg = Decision.processed ctx := by
  simp only [handleDecision] at h
  split at h
  · simp at h
  · split at h
    · simp at h
    · exact handlePolicy_processed h

/-! ## Dedup cache lemmas -/

lemma sweepRecent_any_false {now : Nat} {m : List (String × Nat)} {k : String}
    (h : m.any (fun kt => kt.1 = k) = false) :
    (sweepRecent now m).any (fun kt => kt.1 = k) = false := by
  simp only [sweepRecent, List.any_eq_false] at *
  intro kt hkt
  exact h kt (List.mem_of_mem_filter hkt)

lemma ite_sweep_any_false {now : Nat} {m : List (String × Nat)} {k : String}
    (h : m.any (fun kt => kt.1 = k) = false) :
    (if m.length > RECENT_MAX then sweepRecent now m else m).any (fun kt => kt.1 = k) = false := by
  split
  · exact sweepRecent_any_false h
  · exact h

lemma dedupeCheck_not_seen {now : Nat} {m : List (String × Nat)} {k : String}
    (h : m.any (fun kt => kt.1 = k) = false) :
    dedupeCheck now m k =
      (false, (k, now) :: (if m.length > RECENT_MAX then sweepRecent now m else m)) := by
  simp only [dedupeCheck]
  rw [if_neg]
  simp [@ite_sweep_any_false now m k h]

lemma dedupeCheck_cons_fresh {m : List (String × Nat)} {k k2 : String} {t : Nat}
    (h : m.any (fun kt => kt.1 = k2) = false) (hne : k ≠ k2) :
    ((k, t) :: m).any (fun kt => kt.1 = k2) = false := by
  simp [h, hne]

/-! ## Claim theorems -/

/-- C1: for an inbound direct message that passes dedup (`alreadySeen = false`)
and self-message suppression, the DM policy decision of `handleMessage` is:
policy `disabled` drops the message silently; policy `open` always admits it
past the policy gates (it is then handled as a conversational turn, subject
only to the separate empty-body validation); policy `pairing` admits it past
the gates if and only if the sender matches the effective allow-list via
`isSenderAllowed` (case-insensitive match on normalized id, address or display
name, or a `"*"` wildcard), and a sender that does not match is never
processed as a conversational turn. -/
theorem C1_dm_policy_decision (env : MonitorEnv) (pendingIds : List String) (msg : ZulipMsg)
    (hdm : msg.type = ZMsgType.privateMsg)
    (hself : msg.sender_id ≠ env.botUserId) :
    (env.dmPolicy = DmPolicy.dmDisabled →
      handleDecision env pendingIds false msg = Decision.droppedDmDisabled) ∧
    (env.dmPolicy = DmPolicy.dmOpen →
      (handleDecision env pendingIds false msg).passesPolicy = true) ∧
    (env.dmPolicy = DmPolicy.dmPairing →
      ((handleDecision env pendingIds false msg).passesPolicy = true ↔
        isSenderAllowed (toString msg.sender_id) msg.sender_email msg.sender_full_name
          (getEffectiveAllowFrom env) = true) ∧
      (isSenderAllowed (toString msg.sender_id) msg.sender_email msg.sender_full_name
          (getEffectiveAllowFrom env) = false →
        ∀ ctx, handleDecision env pendingIds false msg ≠ Decision.processed ctx)) := by
  have hty : ¬ msg.type ≠ ZMsgType.privateMsg := by simp [hdm]
  simp only [handleDecision, if_neg hself, Bool.false_eq_true, if_neg (by simp : ¬ False),
    handlePolicy, if_neg hty, dmGateAndProcess, if_pos hdm, dmGate]
  refine ⟨fun hpol => by simp [hpol], fun hpol => ?_, fun hpol => ?_⟩
  · simp only [hpol, if_neg (by simp : ¬ DmPolicy.dmOpen = DmPolicy.dmDisabled)]
    simpa using passesPolicy_processTurn env msg
  · simp only [hpol, if_neg (by simp : ¬ DmPolicy.dmPairing = DmPolicy.dmDisabled)]
    cases hall : isSenderAllowed (toString msg.sender_id) msg.sender_email msg.sender_full_name
        (getEffectiveAllowFrom env)
    · simp only [hall, Bool.not_false, Bool.and_true, ne_eq]
      constructor
      · simp [Decision.passesPolicy]
      · intro _ ctx
        simp [Decision.passesPolicy]
    · simp only [hall, Bool.not_true, Bool.and_false, Bool.false_eq_true,
        if_neg (by simp : ¬ False)]
      constructor
      · simp [passesPolicy_processTurn env msg]
      · intro hcontra
        simp at hcontra

/-- Concrete fixture: an account with DM policy `open`, one auto-reply stream
`general`, empty allow-lists, and no configured mention patterns. -/
def envOpenW : MonitorEnv :=
  { accountId := "default"
    botUserId := 1
    botName := "Claw Bot"
    dmPolicy := DmPolicy.dmOpen
    allowFromCfg := []
    autoReplyStreams := ["general"]
    matchesMention := fun _ => false
    storeAllowFrom := []
    genPairingCode := fun s => "code-" ++ s }

/-- Concrete fixture: a direct message from user 42. -/
def msgDmW : ZulipMsg :=
  { id := 10
    sender_id := 42
    sender_email := "alice@example.com"
    sender_full_name := "Alice"
    type := ZMsgType.privateMsg
    stream_id := none
    display_recipient := none
    subject := none
    content := "hello"
    timestamp := 1700000000 }

/-- C1 witness: under DM policy `open`, the concrete direct message passes the
policy gates. -/
theorem C1_dm_policy_decision_witness :
    (handleDecision envOpenW [] false msgDmW).passesPolicy = true :=
  (C1_dm_policy_decision envOpenW [] msgDmW (by decide) (by decide)).2.1 rfl

/-- C2: for an inbound broadcast (stream) message that passes dedup and
self-message suppression: outside the auto-reply set it is admitted past the
policy gates iff the bot is mentioned by display name or a configured mention
pattern matches, and is dropped silently otherwise; inside the auto-reply set
no mention is required — it is admitted unconditionally when the effective
allow-list is empty, and otherwise admitted iff the sender passes
`isSenderAllowed`, being dropped silently if not. -/
theorem C2_stream_policy_decision (env : MonitorEnv) (pendingIds : List String) (msg : ZulipMsg)
    (hst : msg.type = ZMsgType.stream)
    (hself : msg.sender_id ≠ env.botUserId) :
    (inAutoReplyStream env msg = false →
      (((handleDecision env pendingIds false msg).passesPolicy = true ↔
        (wasBotMentioned (trimWs msg.content) env.botName ||
          env.matchesMention (trimWs msg.content)) = true) ∧
       ((wasBotMentioned (trimWs msg.content) env.botName ||
          env.matchesMention (trimWs msg.content)) = false →
        handleDecision env pendingIds false msg = Decision.droppedNoMention))) ∧
    (inAutoReplyStream env msg = true →
      ((getEffectiveAllowFrom env = [] →
         (handleDecision env pendingIds false msg).passesPolicy = true) ∧
       (getEffectiveAllowFrom env ≠ [] →
         (((handleDecision env pendingIds false msg).passesPolicy = true ↔
           isSenderAllowed (toString msg.sender_id) msg.sender_email msg.sender_full_name
             (getEffectiveAllowFrom env) = true) ∧
          (isSenderAllowed (toString msg.sender_id) msg.sender_email msg.sender_full_name
             (getEffectiveAllowFrom env) = false →
           handleDecision env pendingIds false msg =
             Decision.droppedStreamSenderNotAllowed))))) := by
  have hty : ¬ msg.type = ZMsgType.privateMsg := by simp [hst]
  have hty2 : msg.type ≠ ZMsgType.privateMsg := hty
  simp only [handleDecision, if_neg hself, Bool.false_eq_true, if_neg (by simp : ¬ False),
    handlePolicy, if_pos hty2, dmGateAndProcess, if_neg hty]
  constructor
  · intro hauto
    simp only [hauto]
    cases hmention : wasBotMentioned (trimWs msg.content) env.botName
    · cases hpat : env.matchesMention (trimWs msg.content)
      · refine ⟨by simp [Decision.passesPolicy], fun _ => by simp⟩
      · refine ⟨?_, by simp⟩
        simpa using passesPolicy_processTurn env msg
    · refine ⟨?_, by simp⟩
      simpa using passesPolicy_processTurn env msg
  · intro hauto
    simp only [hauto]
    by_cases heff : getEffectiveAllowFrom env = []
    · refine ⟨fun _ => ?_, fun hne => absurd heff hne⟩
      simp only [heff]
      simpa using passesPolicy_processTurn env msg
    · refine ⟨fun h0 => absurd h0 heff, fun _ => ?_⟩
      have hlen : 0 < (getEffectiveAllowFrom env).length := List.length_pos.mpr heff
      cases hall : isSenderAllowed (toString msg.sender_id) msg.sender_email msg.sender_full_name
          (getEffectiveAllowFrom env)
      · refine ⟨?_, fun _ => ?_⟩
        · simp [hall, hlen, Decision.passesPolicy]
        · simp [hall, hlen]
      · refine ⟨?_, by simp⟩
        simp only [hall, Bool.not_true, Bool.and_false, Bool.false_eq_true,
          if_neg (by simp : ¬ False)]
        simpa using passesPolicy_processTurn env msg

/-- Concrete fixture: a stream message in `general` with no mention markup. -/
def msgStreamW : ZulipMsg :=
  { id := 11
    sender_id := 42
    sender_email := "alice@example.com"
    sender_full_name := "Alice"
    type := ZMsgType.stream
    stream_id := some 7
    display_recipient := some "general"
    subject := some "greetings"
    content := "hello there"
    timestamp := 1700000000 }

/-- C2 witness: in the auto-reply stream `general` with an empty effective
allow-list, the concrete mention-free message is admitted. -/
theorem C2_stream_policy_decision_witness :
    (handleDecision envOpenW [] false msgStreamW).passesPolicy = true :=
  ((C2_stream_policy_decision envOpenW [] msgStreamW (by decide) (by decide)).2
    (by decide)).1 (by decide)

/-- C9: whenever `handleMessage` hands an inbound context to reply generation,
the `CommandAuthorized` flag equals: `true` for direct messages (always, once
admitted past policy), and for broadcast messages exactly the
`isSenderAllowed` membership test on the effective allow-list — the same check
the auto-reply gate uses. -/
theorem C9_command_authorized (env : MonitorEnv) (pendingIds : List String) (seen : Bool)
    (msg : ZulipMsg) (ctx : InboundCtx)
    (h : handleDecision env pendingIds seen msg = Decision.processed ctx) :
    ctx.CommandAuthorized =
      (decide (msg.type = ZMsgType.privateMsg) ||
        isSenderAllowed (toString msg.sender_id) msg.sender_email msg.sender_full_name
          (getEffectiveAllowFrom env)) := by
  have hp := handleDecision_processed h
  simp only [processTurn] at hp
  split at hp
  · simp at hp
  · rw [Decision.processed.injEq] at hp
    subst hp
    rfl

/-- C9 witness: the concrete admitted direct message carries
`CommandAuthorized = true`. -/
theorem C9_command_authorized_witness :
    ((InboundCtx.mk "hello" "hello" "hello" "dm:42" CtxChatType.direct "10" "Alice" "42"
        none true).CommandAuthorized =
      (decide (msgDmW.type = ZMsgType.privateMsg) ||
        isSenderAllowed (toString msgDmW.sender_id) msgDmW.sender_email msgDmW.sender_full_name
          (getEffectiveAllowFrom envOpenW))) :=
  C9_command_authorized envOpenW [] false msgDmW _ (by decide)

lemma dedupeCheck_seen_head {now2 now1 : Nat} {m : List (String × Nat)} {k : String}
    (hkeep : now2 - now1 ≤ RECENT_MESSAGE_TTL_MS) :
    (dedupeCheck now2 ((k, now1) :: m) k).1 = true := by
  have hb : decide (now2 - now1 > RECENT_MESSAGE_TTL_MS) = false := decide_eq_false (by omega)
  have hany : (if ((k, now1) :: m).length > RECENT_MAX then sweepRecent now2 ((k, now1) :: m)
      else (k, now1) :: m).any (fun kt => kt.1 = k) = true := by
    split
    · simp [sweepRecent, List.filter_cons, hb]
    · simp
  simp only [List.length_cons] at hany
  simp [dedupeCheck, hany]

/-- C6: for a key (combining account id and message id) not yet in the cache,
the first `dedupeCheck` reports "not seen" and records the key at the current
time; a second check for the same key whose age is within the 5-minute TTL
reports "already seen"; the opportunistic sweep removes exactly the entries
whose age exceeds the TTL, and no entry is removed while the cache holds at
most `RECENT_MAX = 2000` entries. -/
theorem C6_dedupe_check (m : List (String × Nat)) (k : String) (now1 : Nat)
    (h : m.any (fun kt => kt.1 = k) = false) :
    (dedupeCheck now1 m k).1 = false ∧
    (dedupeCheck now1 m k).2.any (fun kt => kt.1 = k) = true ∧
    (∀ now2, now2 - now1 ≤ RECENT_MESSAGE_TTL_MS →
      (dedupeCheck now2 (dedupeCheck now1 m k).2 k).1 = true) ∧
    (∀ kt, kt ∈ sweepRecent now1 m ↔ (kt ∈ m ∧ now1 - kt.2 ≤ RECENT_MESSAGE_TTL_MS)) ∧
    (m.length ≤ RECENT_MAX → (dedupeCheck now1 m k).2 = (k, now1) :: m) := by
  rw [dedupeCheck_not_seen h]
  refine ⟨rfl, by simp, fun now2 h2 => ?_, fun kt => ?_, fun hlen => ?_⟩
  · exact dedupeCheck_seen_head h2
  · simp only [sweepRecent, List.mem_filter]
    constructor
    · rintro ⟨hm, hp⟩
      refine ⟨hm, ?_⟩
      simpa using hp
    · rintro ⟨hm, hp⟩
      exact ⟨hm, by simpa using hp⟩
  · rw [if_neg (by omega)]

/-- C6 witness: a fresh key in an empty cache is reported "not seen". -/
theorem C6_dedupe_check_witness : (dedupeCheck 0 [] "default:10").1 = false :=
  (C6_dedupe_check [] "default:10" 0 (by decide)).1

/-- Evaluation of the DM-policy block under policy `pairing` for a sender
outside the effective allow-list: the message is not processed; a pairing
request is upserted, reported created exactly when the sender has no pending
request. -/
lemma handleDecision_pairing_unpaired {env : MonitorEnv} {p : List String} {msg : ZulipMsg}
    (hdm : msg.type = ZMsgType.privateMsg)
    (hself : msg.sender_id ≠ env.botUserId)
    (hpol : env.dmPolicy = DmPolicy.dmPairing)
    (hall : isSenderAllowed (toString msg.sender_id) msg.sender_email msg.sender_full_name
        (getEffectiveAllowFrom env) = false) :
    handleDecision env p false msg =
      Decision.droppedDmUnpaired (some (!(p.contains (toString msg.sender_id)))) := by
  have hty : ¬ msg.type ≠ ZMsgType.privateMsg := by simp [hdm]
  simp only [handleDecision, if_neg hself, Bool.false_eq_true, if_neg (by simp : ¬ False),
    handlePolicy, if_neg hty, dmGateAndProcess, if_pos hdm, dmGate, hpol, hall]
  simp

/-- Full evaluation of one `handleMessageStep` for a first-contact pairing
message: dedup records the key, exactly one pairing request is created and
exactly one instructional reply is attempted. -/
lemma handleMessageStep_pairing_first {env : MonitorEnv} {st : MonitorState} {msg : ZulipMsg}
    {now : Nat}
    (hdm : msg.type = ZMsgType.privateMsg)
    (hself : msg.sender_id ≠ env.botUserId)
    (hpol : env.dmPolicy = DmPolicy.dmPairing)
    (hall : isSenderAllowed (toString msg.sender_id) msg.sender_email msg.sender_full_name
        (getEffectiveAllowFrom env) = false)
    (hpend : st.pendingPairing.contains (toString msg.sender_id) = false)
    (hk : st.recentIds.any (fun kt => kt.1 = dedupeKey env msg) = false) :
    handleMessageStep env now st msg =
      (Decision.droppedDmUnpaired (some true),
       { recentIds := (dedupeKey env msg, now) ::
           (if st.recentIds.length > RECENT_MAX then sweepRecent now st.recentIds
            else st.recentIds)
         pendingPairing := toString msg.sender_id :: st.pendingPairing
         outbox := st.outbox ++
           [("dm:" ++ toString msg.sender_id,
             env.genPairingCode (toString msg.sender_id))] }) := by
  have hcontains : (st.pendingPairing.contains (toString msg.sender_id)) = false := hpend
  simp only [handleMessageStep, if_neg hself, dedupeCheck_not_seen hk,
    handleDecision_pairing_unpaired hdm hself hpol hall, hcontains, Bool.not_false,
    upsertPairingRequest]
  simp [hcontains]

/-- Full evaluation of one `handleMessageStep` for a repeated pairing message:
the request already pends, so nothing is created and no reply is attempted. -/
lemma handleMessageStep_pairing_repeat {env : MonitorEnv} {st : MonitorState} {msg : ZulipMsg}
    {now : Nat}
    (hdm : msg.type = ZMsgType.privateMsg)
    (hself : msg.sender_id ≠ env.botUserId)
    (hpol : env.dmPolicy = DmPolicy.dmPairing)
    (hall : isSenderAllowed (toString msg.sender_id) msg.sender_email msg.sender_full_name
        (getEffectiveAllowFrom env) = false)
    (hpend : st.pendingPairing.contains (toString msg.sender_id) = true)
    (hk : st.recentIds.any (fun kt => kt.1 = dedupeKey env msg) = false) :
    handleMessageStep env now st msg =
      (Decision.droppedDmUnpaired (some false),
       { recentIds := (dedupeKey env msg, now) ::
           (if st.recentIds.length > RECENT_MAX then sweepRecent now st.recentIds
            else st.recentIds)
         pendingPairing := st.pendingPairing
         outbox := st.outbox }) := by
  simp only [handleMessageStep, if_neg hself, dedupeCheck_not_seen hk,
    handleDecision_pairing_unpaired hdm hself hpol hall, hpend, Bool.not_true,
    upsertPairingRequest]
  simp [hpend]

/-- C3: under DM policy `pairing`, for a sender not yet allow-listed: the
first direct message creates exactly one pairing-request record and attempts
exactly one pairing-instructions reply (carrying the minted verification
code); a further direct message from the same sender before approval creates
no duplicate record and sends no additional reply; both messages are dropped
(never processed as conversational turns).  The pairing store's upsert is
modelled from the spec (see `upsertPairingRequest`); the reply is sent only
when the upsert reports the request as newly created. -/
theorem C3_pairing_idempotent (env : MonitorEnv) (st0 : MonitorState) (msg1 msg2 : ZulipMsg)
    (now1 now2 : Nat)
    (hpol : env.dmPolicy = DmPolicy.dmPairing)
    (hdm1 : msg1.type = ZMsgType.privateMsg)
    (hdm2 : msg2.type = ZMsgType.privateMsg)
    (hself1 : msg1.sender_id ≠ env.botUserId)
    (hsame : msg2.sender_id = msg1.sender_id)
    (hall1 : isSenderAllowed (toString msg1.sender_id) msg1.sender_email msg1.sender_full_name
        (getEffectiveAllowFrom env) = false)
    (hall2 : isSenderAllowed (toString msg2.sender_id) msg2.sender_email msg2.sender_full_name
        (getEffectiveAllowFrom env) = false)
    (hpend : st0.pendingPairing.contains (toString msg1.sender_id) = false)
    (hk1 : st0.recentIds.any (fun kt => kt.1 = dedupeKey env msg1) = false)
    (hk2 : st0.recentIds.any (fun kt => kt.1 = dedupeKey env msg2) = false)
    (hkne : dedupeKey env msg1 ≠ dedupeKey env msg2) :
    (handleMessageStep env now1 st0 msg1).1 = Decision.droppedDmUnpaired (some true) ∧
    (handleMessageStep env now1 st0 msg1).2.pendingPairing =
      toString msg1.sender_id :: st0.pendingPairing ∧
    (handleMessageStep env now1 st0 msg1).2.outbox =
      st0.outbox ++ [("dm:" ++ toString msg1.sender_id,
        env.genPairingCode (toString msg1.sender_id))] ∧
    (handleMessageStep env now2 (handleMessageStep env now1 st0 msg1).2 msg2).1 =
      Decision.droppedDmUnpaired (some false) ∧
    (handleMessageStep env now2 (handleMessageStep env now1 st0 msg1).2 msg2).2.pendingPairing =
      (handleMessageStep env now1 st0 msg1).2.pendingPairing ∧
    (handleMessageStep env now2 (handleMessageStep env now1 st0 msg1).2 msg2).2.outbox =
      (handleMessageStep env now1 st0 msg1).2.outbox := by
  have hid : toString msg2.sender_id = toString msg1.sender_id := by rw [hsame]
  have hself2 : msg2.sender_id ≠ env.botUserId := by rw [hsame]; exact hself1
  have h1 := @handleMessageStep_pairing_first env st0 msg1 now1 hdm1 hself1 hpol hall1 hpend hk1
  rw [h1]
  have hpend2 :
      ((toString msg1.sender_id :: st0.pendingPairing).contains (toString msg2.sender_id)) =
        true := by
    simp [hid]
  have hk2' :
      (((dedupeKey env msg1, now1) ::
          (if st0.recentIds.length > RECENT_MAX then sweepRecent now1 st0.recentIds
           else st0.recentIds)).any (fun kt => kt.1 = dedupeKey env msg2)) = false :=
    dedupeCheck_cons_fresh (ite_sweep_any_false hk2) hkne
  have h2 := @handleMessageStep_pairing_repeat env
    { recentIds := (dedupeKey env msg1, now1) ::
        (if st0.recentIds.length > RECENT_MAX then sweepRecent now1 st0.recentIds
         else st0.recentIds)
      pendingPairing := toString msg1.sender_id :: st0.pendingPairing
      outbox := st0.outbox ++ [("dm:" ++ toString msg1.sender_id,
        env.genPairingCode (toString msg1.sender_id))] }
    msg2 now2 hdm2 hself2 hpol hall2 hpend2 hk2'
  rw [h2]
  simp

/-- Concrete fixture: an account with DM policy `pairing` and empty
allow-lists. -/
def envPairW : MonitorEnv :=
  { accountId := "default"
    botUserId := 1
    botName := "Claw Bot"
    dmPolicy := DmPolicy.dmPairing
    allowFromCfg := []
    autoReplyStreams := []
    matchesMention := fun _ => false
    storeAllowFrom := []
    genPairingCode := fun s => "code-" ++ s }

/-- Concrete fixture: second direct message from the same sender as
`msgDmW`. -/
def msgDmW2 : ZulipMsg :=
  { msgDmW with id := 12, content := "hello again" }

/-- C3 witness: for the concrete pairing-policy account, the first DM from
user 42 creates the request and attempts one reply, the second DM changes
nothing. -/
theorem C3_pairing_idempotent_witness :
    (handleMessageStep envPairW 0 ⟨[], [], []⟩ msgDmW).1 =
      Decision.droppedDmUnpaired (some true) ∧
    (handleMessageStep envPairW 0 ⟨[], [], []⟩ msgDmW).2.pendingPairing =
      toString msgDmW.sender_id :: ([] : List String) ∧
    (handleMessageStep envPairW 0 ⟨[], [], []⟩ msgDmW).2.outbox =
      ([] : List (String × String)) ++ [("dm:" ++ toString msgDmW.sender_id,
        envPairW.genPairingCode (toString msgDmW.sender_id))] ∧
    (handleMessageStep envPairW 5 (handleMessageStep envPairW 0 ⟨[], [], []⟩ msgDmW).2
        msgDmW2).1 = Decision.droppedDmUnpaired (some false) ∧
    (handleMessageStep envPairW 5 (handleMessageStep envPairW 0 ⟨[], [], []⟩ msgDmW).2
        msgDmW2).2.pendingPairing =
      (handleMessageStep envPairW 0 ⟨[], [], []⟩ msgDmW).2.pendingPairing ∧
    (handleMessageStep envPairW 5 (handleMessageStep envPairW 0 ⟨[], [], []⟩ msgDmW).2
        msgDmW2).2.outbox =
      (handleMessageStep envPairW 0 ⟨[], [], []⟩ msgDmW).2.outbox :=
  C3_pairing_idempotent envPairW ⟨[], [], []⟩ msgDmW msgDmW2 0 5 (by decide) (by decide)
    (by decide) (by decide) (by decide) (by decide) (by decide) (by decide) (by decide)
    (by decide) (by decide)

/-! ## monitor.ts: the reconnect loop's backoff (lines 375-411) -/

def MAX_BACKOFF_MS : Nat := 30000

/-- One observable outcome of a `try` body iteration in
`monitorZulipProvider`'s outer loop: either the queue registration succeeded
(after which the inner poll loop runs until a failure or cancellation), or the
body threw (registration or poll failure). -/
inductive LoopEvent where
  | regSuccess
  | failure

/-- The backoff bookkeeping of the outer loop: a successful registration
resets `backoffMs` to the 1-second floor and sleeps nothing; a failure sleeps
the current `backoffMs` and then doubles it, capped at `MAX_BACKOFF_MS`
(`backoffMs = Math.min(backoffMs * 2, MAX_BACKOFF_MS)`).  Returns the new
backoff and the delay slept, if any. -/
def backoffStep (backoffMs : Nat) : LoopEvent → Nat × Option Nat
  | LoopEvent.regSuccess => (1000, none)
  | LoopEvent.failure => (min (backoffMs * 2) MAX_BACKOFF_MS, some backoffMs)

/-- Run the outer loop over a sequence of iteration outcomes, collecting the
sleeps performed, starting from the given `backoffMs` (initially 1000). -/
def runLoop (backoffMs : Nat) : List LoopEvent → Nat × List Nat
  | [] => (backoffMs, [])
  | ev :: rest =>
    let step := backoffStep backoffMs ev
    let tail := runLoop step.1 rest
    (tail.1, (match step.2 with | some d => [d] | none => []) ++ tail.2)

lemma backoff_double_cap (j : Nat) :
    min (min (1000 * 2 ^ j) MAX_BACKOFF_MS * 2) MAX_BACKOFF_MS =
      min (1000 * 2 ^ (j + 1)) MAX_BACKOFF_MS := by
  have h : 1000 * 2 ^ (j + 1) = 1000 * 2 ^ j * 2 := by ring
  rw [h]
  simp only [MAX_BACKOFF_MS]
  omega

lemma runLoop_failures (n j : Nat) :
    (runLoop (min (1000 * 2 ^ j) MAX_BACKOFF_MS)
        (List.replicate n LoopEvent.failure)).2 =
      (List.range n).map (fun k => min (1000 * 2 ^ (j + k)) MAX_BACKOFF_MS) := by
  induction n generalizing j with
  | zero => simp [runLoop]
  | succ n ih =>
    rw [List.replicate_succ]
    simp only [runLoop, backoffStep]
    rw [backoff_double_cap j, ih (j + 1), List.range_succ_eq_map]
    simp only [List.map_cons, List.map_map, List.singleton_append, List.cons.injEq]
    refine ⟨by simp, ?_⟩
    have hfun : (fun k => 1000 * 2 ^ (j + 1 + k) ⊓ MAX_BACKOFF_MS) =
        ((fun k => 1000 * 2 ^ (j + k) ⊓ MAX_BACKOFF_MS) ∘ Nat.succ) := by
      funext k
      simp only [Function.comp_apply]
      have he : j + 1 + k = j + (k + 1) := by omega
      rw [he]
    rw [hfun]

/-- C7: starting from the 1-second floor, `n` consecutive registration/poll
failures sleep exactly 1s, 2s, 4s, 8s, 16s, 30s, 30s, ... — the k-th failure
sleeps `min(1000·2^k, 30000)` ms, i.e. the current backoff, which is then
doubled and capped at the 30-second ceiling — and any successful queue
registration immediately resets the backoff to 1000 ms, so the events after
it behave as from a fresh start. -/
theorem C7_backoff_sequence :
    (∀ n : Nat, (runLoop 1000 (List.replicate n LoopEvent.failure)).2 =
      (List.range n).map (fun k => min (1000 * 2 ^ k) MAX_BACKOFF_MS)) ∧
    (∀ (b : Nat) (evs : List LoopEvent),
      runLoop b (LoopEvent.regSuccess :: evs) = runLoop 1000 evs) ∧
    (runLoop 1000 (List.replicate 7 LoopEvent.failure)).2 =
      [1000, 2000, 4000, 8000, 16000, 30000, 30000] := by
  have hbase : ∀ n : Nat, (runLoop 1000 (List.replicate n LoopEvent.failure)).2 =
      (List.range n).map (fun k => min (1000 * 2 ^ k) MAX_BACKOFF_MS) := by
    intro n
    have h := runLoop_failures n 0
    have h1000 : min (1000 * 2 ^ 0) MAX_BACKOFF_MS = 1000 := by
      simp [MAX_BACKOFF_MS]
    rw [h1000] at h
    rw [h]
    have hfun : (fun k => 1000 * 2 ^ (0 + k) ⊓ MAX_BACKOFF_MS) =
        (fun k => 1000 * 2 ^ k ⊓ MAX_BACKOFF_MS) := by
      funext k
      rw [Nat.zero_add]
    rw [hfun]
  refine ⟨hbase, fun b evs => ?_, ?_⟩
  · simp [runLoop, backoffStep]
  · rw [hbase 7]
    decide

/-! ## monitor.ts: reply dispatch — the per-message send queue (lines 333-359)

One inbound message's dispatch owns a local `sendChain` promise.  Each reply
payload delivered by the dispatcher enqueues a job with
`sendChain = sendChain.then(fn, fn)`: the job runs after the previous chain
settles, fulfilled or rejected, so jobs run strictly one after another in
enqueue order (a chain built with a single-argument `.then(fn)` would instead
skip every later job once one rejected).  Inside a job, the chunks of the
payload are sent with `await` in a `for` loop with no per-chunk handler, so a
rejected send aborts the remaining chunks of that job (and only of that job).
The model makes the transport submissions observable as start/completion
events; an oracle gives each submission's outcome. -/

/-- The two external text collaborators used by `deliver`:
`core.channel.text.convertMarkdownTables` (with the resolved table mode) and
`core.channel.text.chunkMarkdownTextWithMode` (with the resolved limit and
chunk mode). -/
structure SdkChunking where
  convertTables : String → String
  chunkText : String → List String

/-- The chunk list one payload submits, in production order: convert, chunk,
fall back to the whole text when the chunker returns nothing
(`chunks.length > 0 ? chunks : [text]`), and skip empty chunks
(`if (!chunk) continue`). -/
def payloadChunks (sdk : SdkChunking) (payloadText : String) : List String :=
  let text := sdk.convertTables payloadText
  let chunks := sdk.chunkText text
  (if chunks.length > 0 then chunks else [text]).filter (fun c => c ≠ "")

/-- Tag each payload's chunks with consecutive global production indices. -/
def tagJobs : Nat → List (List String) → List (List (Nat × String))
  | _, [] => []
  | n, cs :: rest => cs.enumFrom n :: tagJobs (n + cs.length) rest

/-- Observable transport events: a chunk submission starting, and the same
submission completing with success or failure. -/
inductive SendEv where
  | start (i : Nat)
  | done (i : Nat) (ok : Bool)
deriving DecidableEq

/-- One enqueued job: the `for` loop over a payload's chunks.  Each submission
runs to completion (`await sendZulipMessage`) before the next starts; a failed
submission rejects the job, aborting its remaining chunks. -/
def runJob (oracle : Nat → Bool) : List (Nat × String) → List SendEv
  | [] => []
  | ic :: rest =>
    if oracle ic.1 then SendEv.start ic.1 :: SendEv.done ic.1 true :: runJob oracle rest
    else [SendEv.start ic.1, SendEv.done ic.1 false]

/-- The send chain: jobs run strictly in enqueue order, each starting only
after the previous job settled — `sendChain.then(fn, fn)` runs `fn` on
fulfillment and on rejection alike, so a failure never skips a later job. -/
def runChain (oracle : Nat → Bool) (jobs : List (List (Nat × String))) : List SendEv :=
  (jobs.map (runJob oracle)).flatten

/-- The full transport trace of dispatching one inbound message's reply
payloads. -/
def dispatchTrace (sdk : SdkChunking) (oracle : Nat → Bool) (payloads : List String) :
    List SendEv :=
  runChain oracle (tagJobs 0 (payloads.map (payloadChunks sdk)))

/-- Total number of chunks produced for a message's payloads. -/
def totalChunks (sdk : SdkChunking) (payloads : List String) : Nat :=
  ((payloads.map (payloadChunks sdk)).map List.length).sum

/-- A trace consisting of consecutive `[start i, done i ok]` blocks: every
submission completes before any later submission starts. -/
def blockFlat : List (Nat × Bool) → List SendEv
  | [] => []
  | ib :: rest => SendEv.start ib.1 :: SendEv.done ib.1 ib.2 :: blockFlat rest

/-- The production indices of the submissions that actually started, in trace
order. -/
def startsOf (tr : List SendEv) : List Nat :=
  tr.filterMap (fun e => match e with | SendEv.start i => some i | _ => none)

/-- The chunks of one job that are submitted: every chunk up to and including
the first failing one. -/
def executedIdxs (oracle : Nat → Bool) : List (Nat × String) → List Nat
  | [] => []
  | ic :: rest => if oracle ic.1 then ic.1 :: executedIdxs oracle rest else [ic.1]

lemma blockFlat_append (a b : List (Nat × Bool)) :
    blockFlat (a ++ b) = blockFlat a ++ blockFlat b := by
  induction a with
  | nil => rfl
  | cons ib rest ih => simp [blockFlat, ih]

lemma runJob_norm (oracle : Nat → Bool) (cs : List (Nat × String)) :
    ∃ pairs : List (Nat × Bool),
      runJob oracle cs = blockFlat pairs ∧
      (pairs.map Prod.fst).Sublist (cs.map Prod.fst) ∧
      ∀ ib ∈ pairs, ib.2 = oracle ib.1 := by
  induction cs with
  | nil => exact ⟨[], rfl, by simp, by simp⟩
  | cons ic rest ih =>
    obtain ⟨pairs, heq, hsub, hok⟩ := ih
    cases hoc : oracle ic.1 with
    | true =>
      refine ⟨(ic.1, true) :: pairs, ?_, ?_, ?_⟩
      · simp [runJob, hoc, blockFlat, heq]
      · simp only [List.map_cons]
        exact hsub.cons₂ ic.1
      · intro ib hib
        rcases List.mem_cons.mp hib with h | h
        · rw [h, hoc]
        · exact hok ib h
    | false =>
      refine ⟨[(ic.1, false)], ?_, ?_, ?_⟩
      · simp [runJob, hoc, blockFlat]
      · simp only [List.map_cons, List.map_nil]
        exact (List.nil_sublist (rest.map Prod.fst)).cons₂ ic.1
      · intro ib hib
        rcases List.mem_singleton.mp hib with h
        rw [h, hoc]

lemma runChain_norm (oracle : Nat → Bool) (css : List (List String)) (n : Nat) :
    ∃ pairs : List (Nat × Bool),
      runChain oracle (tagJobs n css) = blockFlat pairs ∧
      (pairs.map Prod.fst).Sublist (List.range' n ((css.map List.length).sum)) ∧
      ∀ ib ∈ pairs, ib.2 = oracle ib.1 := by
  induction css generalizing n with
  | nil => exact ⟨[], rfl, by simp, by simp⟩
  | cons cs rest ih =>
    obtain ⟨pairs1, heq1, hsub1, hok1⟩ := runJob_norm oracle (cs.enumFrom n)
    obtain ⟨pairs2, heq2, hsub2, hok2⟩ := ih (n + cs.length)
    refine ⟨pairs1 ++ pairs2, ?_, ?_, ?_⟩
    · simp only [tagJobs, runChain, List.map_cons, List.flatten_cons]
      rw [heq1, blockFlat_append]
      have h2 : ((tagJobs (n + cs.length) rest).map (runJob oracle)).flatten =
          blockFlat pairs2 := heq2
      rw [h2]
    · rw [List.map_append]
      have hr1 : (pairs1.map Prod.fst).Sublist (List.range' n cs.length) := by
        rw [List.enumFrom_map_fst] at hsub1
        exact hsub1
      have happ := hr1.append hsub2
      have hrange : List.range' n cs.length ++
          List.range' (n + cs.length) ((rest.map List.length).sum) =
          List.range' n ((rest.map List.length).sum + cs.length) := by
        have h := List.range'_append n cs.length ((rest.map List.length).sum) 1
        simp only [Nat.one_mul] at h
        exact h
      rw [hrange] at happ
      have hcomm : (rest.map List.length).sum + cs.length =
          ((cs :: rest).map List.length).sum := by
        simp [Nat.add_comm]
      rw [hcomm] at happ
      exact happ
    · intro ib hib
      rcases List.mem_append.mp hib with h | h
      · exact hok1 ib h
      · exact hok2 ib h

/-- C4: the transport trace of one inbound message's dispatch is exactly a
sequence of `[start, done]` blocks — chunk N+1 is never submitted before
chunk N's submission completed (successfully or not) — and the submitted
chunks appear in exactly their production order (their production indices form
an increasing subsequence of `0, 1, ..., totalChunks - 1`); each completion
outcome is the transport's.  The serialization is the message-scoped
`sendChain` queue: `.then(fn, fn)` sequences every job after the previous
one settles. -/
theorem C4_ordered_send_queue (sdk : SdkChunking) (oracle : Nat → Bool)
    (payloads : List String) :
    ∃ pairs : List (Nat × Bool),
      dispatchTrace sdk oracle payloads = blockFlat pairs ∧
      (pairs.map Prod.fst).Sublist (List.range (totalChunks sdk payloads)) ∧
      (pairs.map Prod.fst).Chain' (· < ·) ∧
      ∀ ib ∈ pairs, ib.2 = oracle ib.1 := by
  obtain ⟨pairs, heq, hsub, hok⟩ := runChain_norm oracle (payloads.map (payloadChunks sdk)) 0
  rw [← List.range_eq_range'] at hsub
  refine ⟨pairs, heq, hsub, ?_, hok⟩
  exact ((List.pairwise_lt_range _).sublist hsub).chain'

lemma startsOf_append (a b : List SendEv) : startsOf (a ++ b) = startsOf a ++ startsOf b := by
  simp [startsOf]

lemma startsOf_runJob (oracle : Nat → Bool) (cs : List (Nat × String)) :
    startsOf (runJob oracle cs) = executedIdxs oracle cs := by
  induction cs with
  | nil => rfl
  | cons ic rest ih =>
    cases hoc : oracle ic.1 with
    | true => simp [runJob, hoc, executedIdxs, startsOf] at *; exact ih
    | false => simp [runJob, hoc, executedIdxs, startsOf]

/-- C5 (amended): a chunk submission failure truncates only its own payload's
remaining chunks.  The submitted production indices are, payload by payload,
exactly the chunks up to and including the first failing one
(`executedIdxs`), so a failure in one payload never suppresses a later
payload's submissions (each job's contribution depends only on its own
chunks' outcomes), and the first chunk of every payload job is always
submitted.  Failures reject the job promise, which the dispatcher's `onError`
logs; the per-event `try/catch` of the poll loop keeps them away from the
event loop. -/
theorem C5_failure_scope (sdk : SdkChunking) (oracle : Nat → Bool)
    (payloads : List String) :
    startsOf (dispatchTrace sdk oracle payloads) =
      ((tagJobs 0 (payloads.map (payloadChunks sdk))).map (executedIdxs oracle)).flatten ∧
    ∀ (ic : Nat × String) (cs : List (Nat × String)),
      (executedIdxs oracle (ic :: cs)).head? = some ic.1 := by
  constructor
  · have hgen : ∀ jobs : List (List (Nat × String)),
        startsOf ((jobs.map (runJob oracle)).flatten) =
          (jobs.map (executedIdxs oracle)).flatten := by
      intro jobs
      induction jobs with
      | nil => rfl
      | cons cs rest ih =>
        simp only [List.map_cons, List.flatten_cons, startsOf_append, ih,
          startsOf_runJob]
    exact hgen _
  · intro ic cs
    cases hoc : oracle ic.1 <;> simp [executedIdxs, hoc]

/-- Concrete chunking fixture for the counterexample: one payload producing
two chunks `"a"` and `"b"`. -/
def sdkCex : SdkChunking :=
  { convertTables := fun s => s
    chunkText := fun _ => ["a", "b"] }

/-- Failure oracle for the counterexample: the first submission fails. -/
def oracleCex : Nat → Bool := fun i => decide (i ≠ 0)

/-- C5 counterexample: the claim says a delivery failure for one chunk "does
not abort delivery of the subsequent chunks of that payload".  At this
concrete input the payload produces chunks 0 and 1, chunk 0's submission
fails, and chunk 1 is never submitted: the `for` loop's `await` rethrows the
rejection and the job ends. -/
theorem C5_failure_scope_counterexample :
    payloadChunks sdkCex "ab" = ["a", "b"] ∧
    dispatchTrace sdkCex oracleCex ["ab"] = [SendEv.start 0, SendEv.done 0 false] ∧
    SendEv.start 1 ∉ dispatchTrace sdkCex oracleCex ["ab"] := by
  refine ⟨rfl, rfl, ?_⟩
  decide

/-! ## C8: auto-reply channel, cleaned body vs raw content -/

lemma replaceScan_no_match {pat repl : List Char} :
    ∀ {l : List Char}, containsCI pat l = false → replaceScanCI pat repl 0 l = l := by
  intro l
  induction l with
  | nil => intro _; rfl
  | cons c rest ih =>
    intro h
    simp only [containsCI, Bool.or_eq_false_iff] at h
    simp only [replaceScanCI]
    rw [if_neg (by simp [h.1])]
    rw [ih h.2]

/-- Evaluation of the stream gates for an auto-reply channel with an empty
effective allow-list: the message goes straight to the conversational-turn
continuation, no mention required. -/
lemma handleDecision_autoreply_open {env : MonitorEnv} {p : List String} {msg : ZulipMsg}
    (hst : msg.type = ZMsgType.stream)
    (hself : msg.sender_id ≠ env.botUserId)
    (hauto : inAutoReplyStream env msg = true)
    (heff : getEffectiveAllowFrom env = []) :
    handleDecision env p false msg = processTurn env msg := by
  have hty : ¬ msg.type = ZMsgType.privateMsg := by simp [hst]
  have hty2 : msg.type ≠ ZMsgType.privateMsg := hty
  simp only [handleDecision, if_neg hself, Bool.false_eq_true, if_neg (by simp : ¬ False),
    handlePolicy, if_pos hty2, hauto, heff, dmGateAndProcess, if_neg hty]
  simp

/-- Extraction of the cleaned body from a processed turn. -/
lemma processTurn_body {env : MonitorEnv} {msg : ZulipMsg} {ctx : InboundCtx}
    (h : processTurn env msg = Decision.processed ctx) :
    ctx.BodyForAgent = stripMention (trimWs msg.content) env.botName := by
  simp only [processTurn] at h
  split at h
  · simp at h
  · rw [Decision.processed.injEq] at h
    subst h
    rfl

/-- Concrete fixture falsifying C8: a stream message in the auto-reply channel
`general` whose content contains a double space. -/
def msgC8 : ZulipMsg :=
  { id := 13
    sender_id := 42
    sender_email := "alice@example.com"
    sender_full_name := "Alice"
    type := ZMsgType.stream
    stream_id := some 7
    display_recipient := some "general"
    subject := some "greetings"
    content := "hello  world"
    timestamp := 1700000000 }

/-- C8 counterexample: in the auto-reply channel with an empty allow-list and
no mention anywhere in the text, the message is processed, but the cleaned
body handed to reply generation is `"hello world"` while the raw message
content is `"hello  world"`: `stripMention` collapses whitespace runs even
when there is no mention to strip, so the claimed equality with the raw
content fails. -/
theorem C8_clean_body_counterexample :
    inAutoReplyStream envOpenW msgC8 = true ∧
    getEffectiveAllowFrom envOpenW = [] ∧
    wasBotMentioned (trimWs msgC8.content) envOpenW.botName = false ∧
    Decision.agentBody (handleDecision envOpenW [] false msgC8) = some "hello world" ∧
    msgC8.content ≠ "hello world" := by
  decide

/-- C8 (amended): an inbound broadcast message in an auto-reply channel with
an empty effective allow-list is admitted without requiring a mention, and the
cleaned body handed to reply generation is the raw content trimmed,
mention-stripped and whitespace-collapsed (`stripMention`); it equals the raw
content exactly when that normalization leaves the content unchanged — in
particular when there is no mention and no whitespace irregularity. -/
theorem C8_autoreply_clean_body (env : MonitorEnv) (pendingIds : List String) (msg : ZulipMsg)
    (hst : msg.type = ZMsgType.stream)
    (hself : msg.sender_id ≠ env.botUserId)
    (hauto : inAutoReplyStream env msg = true)
    (heff : getEffectiveAllowFrom env = []) :
    (handleDecision env pendingIds false msg).passesPolicy = true ∧
    (∀ ctx, handleDecision env pendingIds false msg = Decision.processed ctx →
      ctx.BodyForAgent = stripMention (trimWs msg.content) env.botName) ∧
    (stripMention (trimWs msg.content) env.botName = msg.content →
      ∀ ctx, handleDecision env pendingIds false msg = Decision.processed ctx →
        ctx.BodyForAgent = msg.content) := by
  have hred := @handleDecision_autoreply_open env pendingIds msg hst hself hauto heff
  refine ⟨?_, fun ctx hc => ?_, fun hfix ctx hc => ?_⟩
  · rw [hred]
    exact passesPolicy_processTurn env msg
  · rw [hred] at hc
    exact processTurn_body hc
  · rw [hred] at hc
    rw [processTurn_body hc, hfix]

/-- The context `handleMessage` builds for `msgStreamW` under `envOpenW`. -/
def ctxStreamW : InboundCtx :=
  { BodyForAgent := "hello there"
    RawBody := "hello there"
    CommandBody := "hello there"
    To := "stream:general:greetings"
    ChatType := CtxChatType.channel
    MessageSid := "11"
    SenderName := "Alice"
    SenderId := "42"
    WasMentioned := some true
    CommandAuthorized := false }

/-- C8 witness: for the concrete mention-free, single-spaced message the
amended statement yields a processed turn whose cleaned body equals the raw
content. -/
theorem C8_autoreply_clean_body_witness :
    (handleDecision envOpenW [] false msgStreamW).passesPolicy = true ∧
    ctxStreamW.BodyForAgent = msgStreamW.content :=
  ⟨(C8_autoreply_clean_body envOpenW [] msgStreamW (by decide) (by decide) (by decide)
      (by decide)).1,
   (C8_autoreply_clean_body envOpenW [] msgStreamW (by decide) (by decide) (by decide)
      (by decide)).2.2 (by decide) ctxStreamW (by decide)⟩

/-! ## send.ts: `parseZulipTarget` and `sendZulipMessage` -/

/-- A direct-message recipient as serialized by
`JSON.stringify([Number(id) || id])`: a positive number when `Number(id)` is
truthy, the raw string otherwise. -/
inductive DmRecipient where
  | num (n : Nat)
  | str (s : String)
deriving DecidableEq

/-- The parsed send target: `stream` carries the stream name and topic,
`direct` the recipient array's single element. -/
inductive ZulipTarget where
  | stream (toName : String) (topic : String)
  | direct (recp : DmRecipient)
deriving DecidableEq

/-- JS `Number(id) || id` for the already-trimmed id strings reaching it in
`parseZulipTarget`: a nonempty all-digit string with nonzero value becomes a
number (`Number("0")` and `Number("")` are falsy), anything else stays a
string.  Non-integer numeric literals (not produced for Zulip user ids) are
not modelled. -/
def jsNumOrStr (id : String) : DmRecipient :=
  if id.data ≠ [] && id.data.all Char.isDigit then
    let n := id.data.foldl (fun acc c => acc * 10 + (c.toNat - 48)) 0
    if n = 0 then DmRecipient.str id else DmRecipient.num n
  else DmRecipient.str id

/-- `send.ts` `parseZulipTarget`: empty/whitespace-only target throws;
`stream:<name>[:<topic>]` parses a stream target with `"(no topic)"` default
(also for an empty topic, which is falsy); `dm:<id>` and `user:<id>` parse a
direct target from the trimmed id; anything else is a stream name with the
default topic.  Prefix tests are case-insensitive (`toLowerCase().startsWith`);
splitting happens at the first `:` (`indexOf`). -/
def parseZulipTarget (raw : String) : Except String ZulipTarget :=
  let trimmed := trimWs raw
  if trimmed = "" then Except.error "Zulip target is required"
  else if startsWithCI "stream:".data trimmed.data then
    let rest := trimmed.data.drop 7
    let pre := rest.takeWhile (fun c => c ≠ ':')
    if pre.length = rest.length then
      Except.ok (ZulipTarget.stream (String.mk rest) "(no topic)")
    else
      let topic := rest.drop (pre.length + 1)
      Except.ok (ZulipTarget.stream (String.mk pre)
        (if topic = [] then "(no topic)" else String.mk topic))
  else if startsWithCI "dm:".data trimmed.data ||
      startsWithCI "user:".data trimmed.data then
    let pre := trimmed.data.takeWhile (fun c => c ≠ ':')
    let id := trimWs (String.mk (trimmed.data.drop (pre.length + 1)))
    Except.ok (ZulipTarget.direct (jsNumOrStr id))
  else Except.ok (ZulipTarget.stream trimmed "(no topic)")

/-- The resolved account credentials `sendZulipMessage` checks
(`resolveZulipAccount` yields trimmed strings or `undefined`). -/
structure ZulipCreds where
  serverUrl : Option String
  botEmail : Option String
  apiKey : Option String

/-- JS truthiness of an optional credential string. -/
def credPresent : Option String → Bool
  | none => false
  | some s => s ≠ ""

/-- The `if (!serverUrl || !botEmail || !apiKey) throw` guard. -/
def credsOk (c : ZulipCreds) : Bool :=
  credPresent c.serverUrl && credPresent c.botEmail && credPresent c.apiKey

/-- The message content `sendZulipMessage` composes: the trimmed text,
augmented by the media-upload markdown link on success
(`[fileName](uri)`, default file name `"file"`), or by the raw media URL as a
text fallback when the load/upload threw and the URL is `http(s)://`
(case-insensitive).  `mediaOutcome` is the external load+upload collaborator's
result: `some (fileName?, uri)` on success, `none` when it threw. -/
def composedContent (text : String) (mediaUrl : Option String)
    (mediaOutcome : Option (Option String × String)) : String :=
  let content0 := trimWs text
  let mediaUrlT := match mediaUrl with | some u => trimWs u | none => ""
  if mediaUrlT ≠ "" then
    match mediaOutcome with
    | some fu =>
      let link := "[" ++ fu.1.getD "file" ++ "](" ++ fu.2 ++ ")"
      if content0 ≠ "" then content0 ++ "\n" ++ link else link
    | none =>
      if startsWithCI "http://".data mediaUrlT.data ||
          startsWithCI "https://".data mediaUrlT.data then
        if content0 ≠ "" then content0 ++ "\n" ++ mediaUrlT else mediaUrlT
      else content0
  else content0

/-- The transport request `sendZulipApiMessage` would receive. -/
structure SendRequest where
  target : ZulipTarget
  content : String
deriving DecidableEq

/-- `send.ts` `sendZulipMessage` up to the transport call: credential check,
target parse, content composition, empty-content check.  `Except.ok` carries
the one transport request issued; `Except.error` means the call threw with no
transport request (the account-id interpolation of the credential error
message is elided). -/
def sendZulipMessageModel (creds : ZulipCreds) (toRaw text : String)
    (mediaUrl : Option String) (mediaOutcome : Option (Option String × String)) :
    Except String SendRequest :=
  if !(credsOk creds) then Except.error "Zulip credentials missing"
  else
    match parseZulipTarget toRaw with
    | Except.error e => Except.error e
    | Except.ok target =>
      let content := composedContent text mediaUrl mediaOutcome
      if content = "" then Except.error "Zulip message is empty"
      else Except.ok { target := target, content := content }

lemma parseZulipTarget_ok {toRaw : String} (h : ¬ trimWs toRaw = "") :
    ∃ t, parseZulipTarget toRaw = Except.ok t := by
  unfold parseZulipTarget
  rw [if_neg h]
  split
  · dsimp only
    split
    · exact ⟨_, rfl⟩
    · exact ⟨_, rfl⟩
  · split
    · exact ⟨_, rfl⟩
    · exact ⟨_, rfl⟩

/-- Concrete credentials for the C10 witness and counterexample. -/
def credsW : ZulipCreds :=
  { serverUrl := some "https://org.zulipchat.com"
    botEmail := some "bot@org.zulipchat.com"
    apiKey := some "secret" }

/-- C10 counterexample: with empty text (so the content is empty after
trimming) and a media URL whose load/upload failed (so no media attachment was
resolved), the claim demands an error and no transport request; but because
the failed URL starts with `https://`, `sendZulipMessage` falls back to
sending the URL as text and issues a transport request. -/
theorem C10_send_validation_counterexample :
    trimWs "" = "" ∧
    sendZulipMessageModel credsW "dm:5" "" (some "https://example.com/a.png") none =
      Except.ok { target := ZulipTarget.direct (DmRecipient.num 5)
                  content := "https://example.com/a.png" } :=
  ⟨rfl, rfl⟩

/-- C10 (amended): given present credentials, `sendZulipMessage` throws before
any transport request exactly when the target is empty or whitespace-only
(`"Zulip target is required"`), or when the composed content is empty
(`"Zulip message is empty"`) — the composed content being the trimmed text
plus any media contribution: a successful upload's link, or, for a failed
upload with an `http(s)://` URL, the URL itself as text.  In particular the
call throws when the trimmed text is empty and there is no usable media
contribution, and every issued request carries a non-empty content and came
from a non-empty target. -/
theorem C10_send_validation (creds : ZulipCreds) (toRaw text : String)
    (mediaUrl : Option String) (mediaOutcome : Option (Option String × String))
    (hcred : credsOk creds = true) :
    (trimWs toRaw = "" →
      sendZulipMessageModel creds toRaw text mediaUrl mediaOutcome =
        Except.error "Zulip target is required") ∧
    (trimWs toRaw ≠ "" →
      (sendZulipMessageModel creds toRaw text mediaUrl mediaOutcome =
          Except.error "Zulip message is empty" ↔
        composedContent text mediaUrl mediaOutcome = "")) ∧
    (trimWs text = "" → mediaUrl = none →
      composedContent text mediaUrl mediaOutcome = "") ∧
    (∀ r, sendZulipMessageModel creds toRaw text mediaUrl mediaOutcome = Except.ok r →
      r.content = composedContent text mediaUrl mediaOutcome ∧
      r.content ≠ "" ∧ trimWs toRaw ≠ "") := by
  refine ⟨fun hto => ?_, fun hto => ?_, fun htext hmedia => ?_, fun r hr => ?_⟩
  · simp only [sendZulipMessageModel, hcred, Bool.not_true, Bool.false_eq_true,
      if_neg (by simp : ¬ False)]
    have : parseZulipTarget toRaw = Except.error "Zulip target is required" := by
      unfold parseZulipTarget
      rw [if_pos hto]
    rw [this]
  · obtain ⟨t, hpt⟩ := parseZulipTarget_ok hto
    simp only [sendZulipMessageModel, hcred, Bool.not_true, Bool.false_eq_true,
      if_neg (by simp : ¬ False), hpt]
    constructor
    · intro h
      by_contra hc
      rw [if_neg hc] at h
      simp at h
    · intro h
      rw [if_pos h]
  · simp [composedContent, htext, hmedia]
  · simp only [sendZulipMessageModel, hcred, Bool.not_true, Bool.false_eq_true,
      if_neg (by simp : ¬ False)] at hr
    by_cases hto : trimWs toRaw = ""
    · exfalso
      have : parseZulipTarget toRaw = Except.error "Zulip target is required" := by
        unfold parseZulipTarget
        rw [if_pos hto]
      rw [this] at hr
      simp at hr
    · obtain ⟨t, hpt⟩ := parseZulipTarget_ok hto
      rw [hpt] at hr
      dsimp only at hr
      by_cases hc : composedContent text mediaUrl mediaOutcome = ""
      · rw [if_pos hc] at hr
        simp at hr
      · rw [if_neg hc] at hr
        simp only [Except.ok.injEq] at hr
        subst hr
        exact ⟨rfl, hc, hto⟩

/-- C10 witness: an empty target errors; and with empty text and no media the
concrete call errors with the empty-message error (via the composed-content
characterization). -/
theorem C10_send_validation_witness :
    sendZulipMessageModel credsW "   " "hi" none none =
      Except.error "Zulip target is required" ∧
    composedContent "" none none = "" :=
  ⟨(C10_send_validation credsW "   " "hi" none none (by decide)).1 (by decide),
   (C10_send_validation credsW "dm:5" "" none none (by decide)).2.2.1 (by decide) rfl⟩

end ZulipSpec
